import Mathlib

/-!
Verification of the slash-command dispatch subsystem and the role-patch
endpoint of the mattermost server, shallowly embedded in Lean 4.

The command registry, trigger resolver, authorization gate and response
normalizer are modelled from the specification (the Go implementation of
those components is not among the provided sources; only their behavioral
test suite `api4/command_test.go` is).  The role-patch endpoint
(`api4.patchRole`) is embedded from its Go source directly.
-/

namespace SlashCmd

/-- Error taxonomy of the subsystem (spec section 7): `invalidInput` maps to
HTTP 400, `validationError` to 400, `notFound` to 404, `unauthorized` to 401,
`forbidden` to 403, `notImplemented` to 501, `integrationError` to 502. -/
inductive CmdError where
  | invalidInput
  | validationError
  | notFound
  | unauthorized
  | forbidden
  | notImplemented
  | integrationError
deriving DecidableEq

/-- Modelled from the spec: the `model.Command` record (spec section 3); the Go
definition of `model.Command` is not among the provided sources. -/
structure Command where
  id : String
  token : String
  creatorId : String
  teamId : String
  trigger : String
  method : String
  url : String
  createAt : Nat
  updateAt : Nat
  deleteAt : Nat
deriving DecidableEq

/-- Modelled from the spec: the implementation-fixed maximum trigger length. -/
def maxTriggerLength : Nat := 128

/-- Modelled from the spec: `Method` must be one of GET or POST. -/
def isValidMethod (m : String) : Bool :=
  m == "GET" || m == "POST"

/-- Modelled from the spec: case canonicalization of a trigger word; defined
over the character list so that it evaluates by kernel reduction. -/
def lowerString (s : String) : String :=
  String.mk (s.data.map Char.toLower)

/-- Modelled from the spec: `URL` must be a well-formed absolute URL. -/
def isValidUrl (u : String) : Bool :=
  u.data.take 7 == "http://".data || u.data.take 8 == "https://".data

/-- Modelled from the spec: validation of a command definition on
create/update (spec section 4.1): the trigger must be nonempty, contain no
`/`, and not exceed the fixed length; method and URL must be valid. -/
def isValidCommandDef (c : Command) : Bool :=
  c.trigger != "" && !(c.trigger.data.contains '/') &&
  decide (c.trigger.length ≤ maxTriggerLength) &&
  isValidMethod c.method && isValidUrl c.url

/-- Modelled from the spec: the command registry, holding the stored
integration definitions plus a counter used to generate fresh ids and
tokens.  The Go storage layer is not among the provided sources. -/
structure Registry where
  commands : List Command
  nextId : Nat
deriving DecidableEq

/-- Modelled from the spec: fresh opaque id assigned on create. -/
def freshCommandId (n : Nat) : String := "cmd-" ++ toString n

/-- Modelled from the spec: fresh server-generated secret token. -/
def freshCommandToken (n : Nat) : String := "tok-" ++ toString n

/-- Modelled from the spec: a case-insensitive trigger collision against an
existing non-deleted command of the same team (spec sections 3 and 4.1). -/
def triggerCollides (cmds : List Command) (teamId trigger : String) : Bool :=
  cmds.any fun c =>
    c.deleteAt == 0 && c.teamId == teamId && lowerString c.trigger == lowerString trigger

/-- Modelled from the spec: `Create(def)` of the Command Registry (spec
section 4.1).  Fails with a validation error on an invalid definition or on a
case-insensitive trigger collision within the team; on success assigns a
fresh id and token, canonicalizes the trigger to lower case, stamps
`CreateAt`, and stores the record. -/
def createCommand (r : Registry) (d : Command) (now : Nat) :
    Except CmdError (Command × Registry) :=
  if !(isValidCommandDef d) then .error .validationError
  else if triggerCollides r.commands d.teamId d.trigger then .error .validationError
  else
    let stored : Command :=
      { d with
        id := freshCommandId r.nextId
        token := freshCommandToken r.nextId
        trigger := lowerString d.trigger
        createAt := now
        updateAt := now
        deleteAt := 0 }
    .ok (stored, ⟨stored :: r.commands, r.nextId + 1⟩)

/-- Registry left behind by a create attempt: unchanged when the create
fails. -/
def registryAfterCreate (r : Registry) (d : Command) (now : Nat) : Registry :=
  match createCommand r d now with
  | .ok (_, r') => r'
  | .error _ => r

/-- Modelled from the spec: `Update(existing, patch)` of the Command Registry
(spec section 4.1).  Fails with `NotFound` when the target no longer exists,
with a validation error on a team-id change attempted through this path or on
an invalid merged record; preserves `Id`, `CreatorId`, `Token` and
`CreateAt`, while `Trigger` (canonicalized), `Method` and `URL` come from the
patch. -/
def updateCommand (r : Registry) (patch : Command) (now : Nat) :
    Except CmdError (Command × Registry) :=
  match r.commands.find? (fun c => c.id == patch.id && c.deleteAt == 0) with
  | none => .error .notFound
  | some existing =>
    if patch.teamId != existing.teamId then .error .validationError
    else
      let merged : Command :=
        { existing with
          trigger := lowerString patch.trigger
          method := patch.method
          url := patch.url
          updateAt := now }
      if !(isValidCommandDef merged) then .error .validationError
      else
        .ok (merged,
          { r with commands := r.commands.map fun c => if c.id == patch.id then merged else c })

/-- Modelled from the spec: the REST create handler.  The handler is not
among the provided sources; `TestCreateCommand` documents that a create
through an authenticated user session stamps the session user's id as
`CreatorId`, overriding the one in the submitted definition, after checking
the service-level enable flag and the caller's management permission. -/
def createCommandRest (enableCommands : Bool) (session : Option String)
    (hasManagePermission : Bool) (r : Registry) (d : Command) (now : Nat) :
    Except CmdError (Command × Registry) :=
  if !enableCommands then .error .notImplemented
  else
    match session with
    | none => .error .unauthorized
    | some userId =>
      if !hasManagePermission then .error .forbidden
      else createCommand r { d with creatorId := userId } now

/-- Modelled from the spec: the local/administrative create handler.  The
handler is not among the provided sources; `TestCreateCommand` documents that
a create through the local client preserves the `CreatorId` supplied in the
definition, and still honors the service-level enable flag. -/
def createCommandLocal (enableCommands : Bool) (r : Registry) (d : Command)
    (now : Nat) : Except CmdError (Command × Registry) :=
  if !enableCommands then .error .notImplemented
  else createCommand r d now

/-- Modelled from the spec: the integration's reply, normalized (spec
section 3); the Go definition of `model.CommandResponse` is not among the
provided sources. -/
structure CommandResponse where
  text : String
  responseType : String
  type : String
  props : List (String × String)
  triggerId : String
deriving DecidableEq

/-- Modelled from the spec: a channel together with its team linkage;
`isDirect` marks direct-message and group-message channels, for which the
team cannot be inferred from the channel. -/
structure Channel where
  id : String
  teamId : String
  isDirect : Bool
deriving DecidableEq

/-- Modelled from the spec: the server-side state visible to a slash-command
invocation: the service-level enable flag, the registry contents, the
channels with their team linkage, the channel- and team-membership relations,
and the counter feeding the trigger-id mint. -/
structure ServerState where
  enableCommands : Bool
  commands : List Command
  channels : List Channel
  channelMembers : List (String × String)
  teamMembers : List (String × String)
  triggerSeq : Nat
deriving DecidableEq

def findChannel (st : ServerState) (channelId : String) : Option Channel :=
  st.channels.find? fun ch => ch.id == channelId

def isChannelMember (st : ServerState) (channelId userId : String) : Bool :=
  st.channelMembers.any fun m => m.1 == channelId && m.2 == userId

def isTeamMember (st : ServerState) (teamId userId : String) : Bool :=
  st.teamMembers.any fun m => m.1 == teamId && m.2 == userId

/-- Removing a user from a channel: drops the membership pair, touching
nothing else. -/
def removeUserFromChannel (st : ServerState) (channelId userId : String) :
    ServerState :=
  { st with
    channelMembers := st.channelMembers.filter fun m =>
      !(m.1 == channelId && m.2 == userId) }

/-- Removing a user from a team: drops the team-membership pair; channel
memberships (direct-message ones included) are untouched. -/
def removeUserFromTeam (st : ServerState) (teamId userId : String) :
    ServerState :=
  { st with
    teamMembers := st.teamMembers.filter fun m =>
      !(m.1 == teamId && m.2 == userId) }

/-- Modelled from the spec: the Trigger Resolver's parsing step (spec section
4.2, steps 1 and 2).  The text must start with `/`; the token up to the first
whitespace boundary, stripped of the slash and lower-cased, is the candidate
trigger, the remainder is the argument string.  An empty text, a text not
starting with `/`, or a bare `/` is rejected. -/
def parseTrigger (text : String) : Option (String × String) :=
  match text.data with
  | [] => none
  | c :: rest =>
    if c = '/' then
      let trigger := rest.takeWhile fun ch => ch != ' '
      let args := (rest.dropWhile fun ch => ch != ' ').drop 1
      if trigger.isEmpty then none
      else some (lowerString (String.mk trigger), String.mk args)
    else none

/-- Modelled from the spec: `FindByTriggerAndTeam` of the Command Registry
(spec section 4.1): exact, case-insensitive match among non-deleted records
of the given team. -/
def findByTriggerAndTeam (cmds : List Command) (trigger teamId : String) :
    Option Command :=
  cmds.find? fun c =>
    c.deleteAt == 0 && c.teamId == teamId && lowerString c.trigger == lowerString trigger

/-- Fixed-fuel base-26 little-endian digit expansion, used by the trigger-id
mint. -/
def toBase26 : Nat → Nat → List Nat
  | 0, _ => []
  | fuel + 1, n => if n == 0 then [] else n % 26 :: toBase26 fuel (n / 26)

/-- The 26 base-26 digits of a counter value, zero-padded at the high end. -/
def triggerIdDigits (n : Nat) : List Nat :=
  let ds := toBase26 26 n
  ds ++ List.replicate (26 - ds.length) 0

def digitChar26 (d : Nat) : Char := Char.ofNat (97 + d)

/-- Modelled from the spec: the Response Normalizer's trigger-id mint (spec
section 4.5); the Go id generator is not among the provided sources.  Every
counter value yields a 26-character identifier, distinct identifiers for
distinct counter values below the capacity of the alphabet. -/
def mintTriggerId (n : Nat) : String :=
  String.mk ((triggerIdDigits n).map digitChar26)

/-- Modelled from the spec: the slash-command execution pipeline (spec
sections 4.2 to 4.5); the Go handler `api4.executeCommand` and
`app.ExecuteCommand` are not among the provided sources.  In order: the
service-level enable flag short-circuits everything with `NotImplemented`;
an absent session fails with `Unauthorized`; malformed text fails with
`InvalidInput`; the caller must be a member of the invoking channel, else
`Forbidden`; for an ordinary channel the team scope is the channel's own
team, for a direct/group-message channel it is the explicitly supplied team
id, whose omission fails with `Forbidden` (the reference tests check a 403
on this path) and whose team the caller must be a member of, else
`Forbidden`; the trigger is then resolved in the scoped team, `NotFound` on
no match; finally the integration's reply is normalized with a freshly
minted trigger id and an ephemeral default response type. -/
def executeCommand (integration : Command → String → CommandResponse)
    (st : ServerState) (session : Option String) (channelId : String)
    (teamIdArg : Option String) (text : String) :
    Except CmdError (CommandResponse × ServerState) :=
  if !st.enableCommands then .error .notImplemented
  else
    match session with
    | none => .error .unauthorized
    | some userId =>
      match parseTrigger text with
      | none => .error .invalidInput
      | some (trigger, args) =>
        match findChannel st channelId with
        | none => .error .notFound
        | some ch =>
          if !(isChannelMember st channelId userId) then .error .forbidden
          else
            match (if ch.isDirect then teamIdArg else some ch.teamId) with
            | none => .error .forbidden
            | some teamId =>
              if ch.isDirect && !(isTeamMember st teamId userId) then
                .error .forbidden
              else
                match findByTriggerAndTeam st.commands trigger teamId with
                | none => .error .notFound
                | some cmd =>
                  let reply := integration cmd args
                  let normalized : CommandResponse :=
                    { reply with
                      responseType :=
                        if reply.responseType == "" then "ephemeral"
                        else reply.responseType
                      triggerId := mintTriggerId st.triggerSeq }
                  .ok (normalized, { st with triggerSeq := st.triggerSeq + 1 })

/-- The outcome of an execution as observed by the caller: the reply or the
error, without the server's internal state. -/
def execOutcome (res : Except CmdError (CommandResponse × ServerState)) :
    Except CmdError CommandResponse :=
  res.map Prod.fst

/-- A concrete integration endpoint used by the witnesses: echoes its
argument string. -/
def exIntegration : Command → String → CommandResponse :=
  fun _ args =>
    ⟨"echo " ++ args, "in_channel", "custom_test", [("someprop", "somevalue")], ""⟩

/-- A concrete command registered on team `t1` with trigger `echo`. -/
def exCmdT1 : Command :=
  ⟨"cmd-10", "tok-10", "u1", "t1", "echo", "GET", "http://nowhere.com", 1, 1, 0⟩

/-- A concrete command registered on team `t2` with trigger `postcommand`. -/
def exCmdT2 : Command :=
  ⟨"cmd-11", "tok-11", "u1", "t2", "postcommand", "POST", "http://nowhere.com", 1, 1, 0⟩

/-- A concrete server state used by the witnesses: commands enabled, the two
commands above, an ordinary channel `c1` of team `t1`, a direct-message
channel `dm1`, user `u1` a member of both channels and of teams `t1` and
`t2`, and user `u2` a member of `c1` only. -/
def exState : ServerState where
  enableCommands := true
  commands := [exCmdT1, exCmdT2]
  channels := [⟨"c1", "t1", false⟩, ⟨"dm1", "", true⟩]
  channelMembers := [("c1", "u1"), ("dm1", "u1"), ("c1", "u2")]
  teamMembers := [("t1", "u1")]
  triggerSeq := 0

/-- Decodes a little-endian base-26 digit list; inverse of the mint's digit
expansion on counters within capacity. -/
def fromBase26 : List Nat → Nat
  | [] => 0
  | d :: ds => d + 26 * fromBase26 ds

/-- The response and state after the first witness execution. -/
def exRespA : CommandResponse :=
  ⟨"echo hi", "in_channel", "custom_test", [("someprop", "somevalue")],
    mintTriggerId 0⟩

def exStateA : ServerState := { exState with triggerSeq := 1 }

/-- The response and state after the second witness execution. -/
def exRespB : CommandResponse :=
  ⟨"echo hi", "in_channel", "custom_test", [("someprop", "somevalue")],
    mintTriggerId 1⟩

def exStateB : ServerState := { exState with triggerSeq := 2 }


/-- The record stored by the REST create of the C9 witness. -/
def exRestStored : Command :=
  ⟨"cmd-0", "tok-0", "admin", "t1", "echo", "GET", "http://nowhere.com", 3, 3, 0⟩

/-- The record stored by the local create of the C9 witness. -/
def exLocalStored : Command :=
  ⟨"cmd-0", "tok-0", "u1", "t1", "echo", "GET", "http://nowhere.com", 3, 3, 0⟩


end SlashCmd


namespace RolesApi

def permissionSysconsoleWriteUserManagementSystemRoles : String :=
  "sysconsole_write_user_management_system_roles"

def permissionSysconsoleReadUserManagementSystemRoles : String :=
  "sysconsole_read_user_management_system_roles"

def permissionManageRoles : String := "manage_roles"

def permissionSysconsoleWriteUserManagementPermissions : String :=
  "sysconsole_write_user_management_permissions"

def permissionManageSystem : String := "manage_system"

def systemAdminRoleId : String := "system_admin"

def systemUserRoleId : String := "system_user"

def systemGuestRoleId : String := "system_guest"

def teamAdminRoleId : String := "team_admin"

def teamUserRoleId : String := "team_user"

def teamGuestRoleId : String := "team_guest"

def channelAdminRoleId : String := "channel_admin"

def channelUserRoleId : String := "channel_user"

def channelGuestRoleId : String := "channel_guest"

/-- The permission blacklist of the role-patch endpoint, embedded from the
`notAllowedPermissions` variable of the roles source file. -/
def notAllowedPermissions : List String :=
  [permissionSysconsoleWriteUserManagementSystemRoles,
   permissionSysconsoleReadUserManagementSystemRoles,
   permissionManageRoles]

/-- A stored role: an id, a name and the granted permission ids. -/
structure Role where
  id : String
  name : String
  permissions : List String
deriving DecidableEq

/-- A role patch: an optional replacement permission list. -/
structure RolePatch where
  permissions : Option (List String)
deriving DecidableEq

/-- The license features consulted by the role-patch endpoint. -/
structure License where
  guestAccountsPermissions : Bool
deriving DecidableEq

/-- An application error as surfaced by the endpoint: a message id, a detail
string and an HTTP status code. -/
structure AppError where
  messageId : String
  details : String
  statusCode : Nat
deriving DecidableEq

def statusBadRequest : Nat := 400

def statusForbidden : Nat := 403

def statusNotFound : Nat := 404

def statusNotImplemented : Nat := 501

/-- The error produced by `SetPermissionError`. -/
def permissionError (p : String) : AppError :=
  ⟨"api.context.permissions.app_error", p, statusForbidden⟩

/-- Modelled from the spec: `model.PermissionsChangedByPatch`, absent from the
provided sources, computes the permission delta of a patch against the old
role: the permissions removed from the old role followed by the permissions
added by the patch. -/
def PermissionsChangedByPatch (role : Role) (patch : RolePatch) : List String :=
  match patch.permissions with
  | none => []
  | some ps =>
    (role.permissions.filter fun p => !(ps.contains p)) ++
    (ps.filter fun p => !(role.permissions.contains p))

/-- Modelled from the spec: `model.RemoveDuplicateStrings`, absent from the
provided sources, deduplicates a string list. -/
def RemoveDuplicateStrings (l : List String) : List String := l.eraseDups

/-- Modelled from the spec: `App.PatchRole`, absent from the provided
sources, applies a validated patch to a role: a supplied permission list
replaces the role's. -/
def appPatchRole (role : Role) (patch : RolePatch) : Role :=
  { role with permissions := patch.permissions.getD role.permissions }

/-- The role-patch endpoint, embedded from `api4.patchRole` of the roles
source file.  Its inputs: the ids of the new system console roles
(`model.NewSystemRoleIDs`), the session's permission oracle
(`SessionHasPermissionTo`), the server license, the role store, the
requested role id, and the decoded patch (`none` when the body failed to
decode).  The checks run in source order: body decoding, role lookup, the
required permission (`manage_system` for special protected system roles,
`sysconsole_write_user_management_permissions` otherwise), the
unlicensed-guest rejection, the permission blacklist on the patch's delta,
deduplication of the patch, the licensed-guest feature flag, the
tier-dependent second permission check, and finally the store write. -/
def patchRole (newSystemRoleIDs : List String) (hasPerm : String → Bool)
    (license : Option License) (store : List Role) (roleId : String)
    (patch : Option RolePatch) : Except AppError (Role × List Role) :=
  match patch with
  | none => .error ⟨"api.context.invalid_body_param.app_error", "", statusBadRequest⟩
  | some patch =>
    match store.find? (fun r => r.id == roleId) with
    | none => .error ⟨"app.role.get.app_error", "", statusNotFound⟩
    | some oldRole =>
      let specialProtectedSystemRoles := newSystemRoleIDs ++ [systemAdminRoleId]
      let requiredPermission :=
        if specialProtectedSystemRoles.contains oldRole.name then
          permissionManageSystem
        else permissionSysconsoleWriteUserManagementPermissions
      if !(hasPerm requiredPermission) then .error (permissionError requiredPermission)
      else
        let isGuest :=
          oldRole.name == systemGuestRoleId || oldRole.name == teamGuestRoleId ||
          oldRole.name == channelGuestRoleId
        if license == none && patch.permissions != none && isGuest then
          .error ⟨"api.roles.patch_roles.license.error", "", statusNotImplemented⟩
        else
          match (PermissionsChangedByPatch oldRole patch).find?
              (fun p => notAllowedPermissions.contains p) with
          | some permission =>
            .error ⟨"api.roles.patch_roles.not_allowed_permission.error",
                    "Cannot add or remove permission: " ++ permission,
                    statusNotImplemented⟩
          | none =>
            let patch : RolePatch :=
              { patch with permissions := patch.permissions.map RemoveDuplicateStrings }
            let guestLicenseBlocked :=
              match license with
              | some l => isGuest && !l.guestAccountsPermissions
              | none => false
            if guestLicenseBlocked then
              .error ⟨"api.roles.patch_roles.license.error", "", statusNotImplemented⟩
            else
              let lowerTier :=
                oldRole.name == teamAdminRoleId || oldRole.name == channelAdminRoleId ||
                oldRole.name == systemUserRoleId || oldRole.name == teamUserRoleId ||
                oldRole.name == channelUserRoleId || oldRole.name == systemGuestRoleId ||
                oldRole.name == teamGuestRoleId || oldRole.name == channelGuestRoleId
              let secondRequired :=
                if lowerTier then permissionSysconsoleWriteUserManagementPermissions
                else permissionSysconsoleWriteUserManagementSystemRoles
              if !(hasPerm secondRequired) then .error (permissionError secondRequired)
              else
                let newRole := appPatchRole oldRole patch
                .ok (newRole, store.map fun r => if r.id == roleId then newRole else r)

/-- The role store left behind by a patch attempt: unchanged when the patch
fails. -/
def storeAfterPatchRole (newSystemRoleIDs : List String)
    (hasPerm : String → Bool) (license : Option License) (store : List Role)
    (roleId : String) (patch : Option RolePatch) : List Role :=
  match patchRole newSystemRoleIDs hasPerm license store roleId patch with
  | .ok (_, store') => store'
  | .error _ => store

/-- A concrete role store for the C10 witness. -/
def exRoleStore : List Role := [⟨"r1", "custom_role", ["read_channel"]⟩]

/-- A concrete patch adding the blacklisted `manage_roles` permission. -/
def exRolePatch : RolePatch := ⟨some ["read_channel", "manage_roles"]⟩

end RolesApi

namespace SlashCmd

theorem exec_unresolved_notFound
    (integration : Command → String → CommandResponse) (st : ServerState)
    (uid channelId text trigger args : String) (teamIdArg : Option String)
    (ch : Channel)
    (hen : st.enableCommands = true)
    (hparse : parseTrigger text = some (trigger, args))
    (hch : findChannel st channelId = some ch)
    (hdir : ch.isDirect = false)
    (hmem : isChannelMember st channelId uid = true)
    (hnone : findByTriggerAndTeam st.commands trigger ch.teamId = none) :
    executeCommand integration st (some uid) channelId teamIdArg text =
      Except.error CmdError.notFound := by
  simp [executeCommand, hen, hparse, hch, hdir, hmem, hnone]

theorem exec_nonmember_forbidden
    (integration : Command → String → CommandResponse) (st : ServerState)
    (uid channelId text trigger args : String) (teamIdArg : Option String)
    (ch : Channel)
    (hen : st.enableCommands = true)
    (hparse : parseTrigger text = some (trigger, args))
    (hch : findChannel st channelId = some ch)
    (hmem : isChannelMember st channelId uid = false) :
    executeCommand integration st (some uid) channelId teamIdArg text =
      Except.error CmdError.forbidden := by
  simp [executeCommand, hen, hparse, hch, hmem]

theorem exec_dm_nonteam_forbidden
    (integration : Command → String → CommandResponse) (st : ServerState)
    (uid channelId text trigger args tid : String) (ch : Channel)
    (hen : st.enableCommands = true)
    (hparse : parseTrigger text = some (trigger, args))
    (hch : findChannel st channelId = some ch)
    (hdir : ch.isDirect = true)
    (hmem : isChannelMember st channelId uid = true)
    (hteam : isTeamMember st tid uid = false) :
    executeCommand integration st (some uid) channelId (some tid) text =
      Except.error CmdError.forbidden := by
  simp [executeCommand, hen, hparse, hch, hdir, hmem, hteam]

theorem isChannelMember_removeUserFromChannel (st : ServerState) (c u : String) :
    isChannelMember (removeUserFromChannel st c u) c u = false := by
  rw [Bool.eq_false_iff]
  intro h
  simp only [isChannelMember, removeUserFromChannel, List.any_eq_true,
    List.mem_filter] at h
  obtain ⟨m, ⟨hmem, hkeep⟩, htrue⟩ := h
  rw [htrue] at hkeep
  exact Bool.false_ne_true hkeep

theorem isTeamMember_removeUserFromTeam (st : ServerState) (t u : String) :
    isTeamMember (removeUserFromTeam st t u) t u = false := by
  rw [Bool.eq_false_iff]
  intro h
  simp only [isTeamMember, removeUserFromTeam, List.any_eq_true,
    List.mem_filter] at h
  obtain ⟨m, ⟨hmem, hkeep⟩, htrue⟩ := h
  rw [htrue] at hkeep
  exact Bool.false_ne_true hkeep

theorem createCommand_ok_creatorId (r : Registry) (d : Command) (now : Nat)
    (stored : Command) (r' : Registry)
    (h : createCommand r d now = .ok (stored, r')) :
    stored.creatorId = d.creatorId := by
  simp only [createCommand] at h
  split at h
  · exact absurd h (by simp)
  · split at h
    · exact absurd h (by simp)
    · simp only [Except.ok.injEq, Prod.mk.injEq] at h
      rw [← h.1]

/-- C8: when command execution is administratively disabled at the service
level, every execution attempt fails with `NotImplemented`, for every
session, channel, team argument and trigger text: the disabled check
short-circuits trigger resolution and the membership checks. -/
theorem claim_C8_disabled_short_circuits
    (integration : Command → String → CommandResponse) (st : ServerState)
    (session : Option String) (channelId : String) (teamIdArg : Option String)
    (text : String) (hdis : st.enableCommands = false) :
    executeCommand integration st session channelId teamIdArg text =
      Except.error CmdError.notImplemented := by
  simp [executeCommand, hdis]

/-- Witness for C8: a concrete disabled state, an existing trigger and a
channel member, still rejected with `NotImplemented`. -/
theorem claim_C8_witness :
    ServerState.enableCommands { exState with enableCommands := false } = false ∧
    executeCommand exIntegration { exState with enableCommands := false }
      (some "u1") "c1" none "/echo hi" = Except.error CmdError.notImplemented :=
  ⟨rfl, claim_C8_disabled_short_circuits exIntegration
    { exState with enableCommands := false } (some "u1") "c1" none "/echo hi" rfl⟩

/-- C1: in an ordinary (non-direct-message) channel the trigger is resolved
only against the channel's own team: when a stored command bears the typed
trigger but a different `TeamId`, and no command carries that trigger on the
channel's team, execution fails with `NotFound`, for every caller that is a
member of the channel. -/
theorem claim_C1_resolution_uses_channel_team
    (integration : Command → String → CommandResponse) (st : ServerState)
    (uid channelId text trigger args : String) (teamIdArg : Option String)
    (ch : Channel) (cmd : Command)
    (hen : st.enableCommands = true)
    (hparse : parseTrigger text = some (trigger, args))
    (hch : findChannel st channelId = some ch)
    (hdir : ch.isDirect = false)
    (hmem : isChannelMember st channelId uid = true)
    (hcmd : cmd ∈ st.commands) (hdel : cmd.deleteAt = 0)
    (htrig : lowerString cmd.trigger = lowerString trigger)
    (hteam : cmd.teamId ≠ ch.teamId)
    (hnone : findByTriggerAndTeam st.commands trigger ch.teamId = none) :
    executeCommand integration st (some uid) channelId teamIdArg text =
      Except.error CmdError.notFound := by
  simp [executeCommand, hen, hparse, hch, hdir, hmem, hnone]

/-- Witness for C1: user `u1` has full membership of team `t2` where
`postcommand` lives, yet typing `/postcommand` in channel `c1` of team `t1`
yields `NotFound`. -/
theorem claim_C1_witness :
    executeCommand exIntegration exState (some "u1") "c1" none "/postcommand" =
      Except.error CmdError.notFound :=
  claim_C1_resolution_uses_channel_team exIntegration exState "u1" "c1"
    "/postcommand" "postcommand" "" none ⟨"c1", "t1", false⟩ exCmdT2
    rfl (by decide) (by decide) rfl (by decide) (by decide) rfl rfl
    (by decide) (by decide)

/-- C6: a successful `Update` leaves the stored record's `Id`, `CreatorId`,
`Token` and `CreateAt` equal to their pre-update values, whatever the patch
supplied for them, while `Trigger` (canonicalized to lower case), `Method`
and `URL` take the patch's values; the updated record is in the registry. -/
theorem claim_C6_update_preserves_identity
    (r : Registry) (patch : Command) (now : Nat) (rc : Command) (r' : Registry)
    (existing : Command)
    (hfind : r.commands.find? (fun c => c.id == patch.id && c.deleteAt == 0) =
      some existing)
    (hupd : updateCommand r patch now = .ok (rc, r')) :
    rc.id = existing.id ∧ rc.creatorId = existing.creatorId ∧
    rc.token = existing.token ∧ rc.createAt = existing.createAt ∧
    rc.trigger = lowerString patch.trigger ∧ rc.method = patch.method ∧
    rc.url = patch.url ∧ rc ∈ r'.commands := by
  simp only [updateCommand, hfind] at hupd
  split at hupd
  · exact absurd hupd (by simp)
  · split at hupd
    · exact absurd hupd (by simp)
    · simp only [Except.ok.injEq, Prod.mk.injEq] at hupd
      obtain ⟨hrc, hr'⟩ := hupd
      subst hrc
      refine ⟨rfl, rfl, rfl, rfl, rfl, rfl, rfl, ?_⟩
      rw [← hr']
      simp only [List.mem_map]
      refine ⟨existing, List.mem_of_find?_eq_some hfind, ?_⟩
      have hpred := List.find?_some hfind
      simp only [Bool.and_eq_true, beq_iff_eq] at hpred
      simp [hpred.1]

/-- Witness for C6: a patch that tries to overwrite the id, creator id,
token and creation time of `cmd-10` succeeds but leaves those fields at
their stored values, while trigger, method and URL are updated. -/
theorem claim_C6_witness :
    updateCommand ⟨[exCmdT1], 12⟩
      ⟨"cmd-10", "tokenchange", "someoneelse", "t1", "Trigger2", "GET",
        "http://nowhere.com/change", 99, 99, 0⟩ 7 =
      Except.ok
        (⟨"cmd-10", "tok-10", "u1", "t1", "trigger2", "GET",
           "http://nowhere.com/change", 1, 7, 0⟩,
         ⟨[⟨"cmd-10", "tok-10", "u1", "t1", "trigger2", "GET",
            "http://nowhere.com/change", 1, 7, 0⟩], 12⟩) ∧
    (⟨"cmd-10", "tok-10", "u1", "t1", "trigger2", "GET",
       "http://nowhere.com/change", 1, 7, 0⟩ : Command).creatorId = exCmdT1.creatorId ∧
    (⟨"cmd-10", "tok-10", "u1", "t1", "trigger2", "GET",
       "http://nowhere.com/change", 1, 7, 0⟩ : Command).token = exCmdT1.token := by
  refine ⟨rfl, ?_, ?_⟩
  · exact (claim_C6_update_preserves_identity ⟨[exCmdT1], 12⟩
      ⟨"cmd-10", "tokenchange", "someoneelse", "t1", "Trigger2", "GET",
        "http://nowhere.com/change", 99, 99, 0⟩ 7
      ⟨"cmd-10", "tok-10", "u1", "t1", "trigger2", "GET",
        "http://nowhere.com/change", 1, 7, 0⟩
      ⟨[⟨"cmd-10", "tok-10", "u1", "t1", "trigger2", "GET",
         "http://nowhere.com/change", 1, 7, 0⟩], 12⟩ exCmdT1
      (by decide) rfl).2.1
  · exact (claim_C6_update_preserves_identity ⟨[exCmdT1], 12⟩
      ⟨"cmd-10", "tokenchange", "someoneelse", "t1", "Trigger2", "GET",
        "http://nowhere.com/change", 99, 99, 0⟩ 7
      ⟨"cmd-10", "tok-10", "u1", "t1", "trigger2", "GET",
        "http://nowhere.com/change", 1, 7, 0⟩
      ⟨[⟨"cmd-10", "tok-10", "u1", "t1", "trigger2", "GET",
         "http://nowhere.com/change", 1, 7, 0⟩], 12⟩ exCmdT1
      (by decide) rfl).2.2.1

/-- C7: among non-deleted commands the pair of team id and lower-cased
trigger is unique: a create whose trigger collides case-insensitively with
an existing non-deleted command of the same team fails with a validation
error and leaves the registry unchanged, while a valid definition without a
collision on its own team (the same trigger on another team in particular)
is stored. -/
theorem claim_C7_trigger_unique_per_team (r : Registry) (d : Command) (now : Nat) :
    ((∃ c ∈ r.commands, c.deleteAt = 0 ∧ c.teamId = d.teamId ∧
        lowerString c.trigger = lowerString d.trigger) →
      createCommand r d now = Except.error CmdError.validationError ∧
      registryAfterCreate r d now = r)
    ∧ (isValidCommandDef d = true →
      triggerCollides r.commands d.teamId d.trigger = false →
      ∃ stored r', createCommand r d now = Except.ok (stored, r') ∧
        stored.trigger = lowerString d.trigger ∧ stored.teamId = d.teamId ∧
        r'.commands = stored :: r.commands) := by
  constructor
  · intro hcol
    have hc : triggerCollides r.commands d.teamId d.trigger = true := by
      obtain ⟨c, hmem, h1, h2, h3⟩ := hcol
      simp only [triggerCollides, List.any_eq_true]
      exact ⟨c, hmem, by simp [h1, h2, h3]⟩
    have herr : createCommand r d now = Except.error CmdError.validationError := by
      by_cases hv : isValidCommandDef d
      · simp [createCommand, hv, hc]
      · simp [createCommand, hv]
    exact ⟨herr, by simp [registryAfterCreate, herr]⟩
  · intro hv hnc
    refine ⟨{ d with
                id := freshCommandId r.nextId
                token := freshCommandToken r.nextId
                trigger := lowerString d.trigger
                createAt := now
                updateAt := now
                deleteAt := 0 },
      ⟨{ d with
           id := freshCommandId r.nextId
           token := freshCommandToken r.nextId
           trigger := lowerString d.trigger
           createAt := now
           updateAt := now
           deleteAt := 0 } :: r.commands, r.nextId + 1⟩, ?_, rfl, rfl, rfl⟩
    simp [createCommand, hv, hnc]

/-- Witness for C7: with `postcommand` already registered on team `t2`,
registering it again on `t2` fails with a validation error and the registry
is untouched; registering the same trigger on team `t1` succeeds. -/
theorem claim_C7_witness :
    (createCommand ⟨[exCmdT1, exCmdT2], 12⟩
        ⟨"", "", "u1", "t2", "PostCommand", "POST", "http://nowhere.com", 0, 0, 0⟩ 9 =
      Except.error CmdError.validationError ∧
      registryAfterCreate ⟨[exCmdT1, exCmdT2], 12⟩
        ⟨"", "", "u1", "t2", "PostCommand", "POST", "http://nowhere.com", 0, 0, 0⟩ 9 =
        ⟨[exCmdT1, exCmdT2], 12⟩)
    ∧ ∃ stored r',
        createCommand ⟨[exCmdT1, exCmdT2], 12⟩
          ⟨"", "", "u1", "t1", "PostCommand", "POST", "http://nowhere.com", 0, 0, 0⟩ 9 =
          Except.ok (stored, r') ∧
        stored.trigger = "postcommand" ∧ stored.teamId = "t1" ∧
        r'.commands = stored :: [exCmdT1, exCmdT2] := by
  constructor
  · exact (claim_C7_trigger_unique_per_team ⟨[exCmdT1, exCmdT2], 12⟩
      ⟨"", "", "u1", "t2", "PostCommand", "POST", "http://nowhere.com", 0, 0, 0⟩ 9).1
      ⟨exCmdT2, by decide, by decide, by decide, by decide⟩
  · exact (claim_C7_trigger_unique_per_team ⟨[exCmdT1, exCmdT2], 12⟩
      ⟨"", "", "u1", "t1", "PostCommand", "POST", "http://nowhere.com", 0, 0, 0⟩ 9).2
      (by decide) (by decide)

/-- C9: a create through an authenticated user session stamps the session
user's id as the stored `CreatorId`, overriding the submitted one, while a
create through the local/administrative client preserves the submitted
`CreatorId`. -/
theorem claim_C9_creator_attribution (r : Registry) (d : Command) (uid : String)
    (hasManagePermission : Bool) (now : Nat) :
    (∀ stored r',
      createCommandRest true (some uid) hasManagePermission r d now =
        Except.ok (stored, r') →
      stored.creatorId = uid)
    ∧ (∀ stored r',
      createCommandLocal true r d now = Except.ok (stored, r') →
      stored.creatorId = d.creatorId) := by
  constructor
  · intro stored r' h
    simp only [createCommandRest, Bool.not_true, Bool.false_eq_true, if_false] at h
    split at h
    · exact absurd h (by simp)
    · exact createCommand_ok_creatorId _ _ _ _ _ h
  · intro stored r' h
    simp only [createCommandLocal, Bool.not_true, Bool.false_eq_true, if_false] at h
    exact createCommand_ok_creatorId _ _ _ _ _ h

/-- Witness for C9: the definition submits `u1` as creator; the REST path
stores `admin` (the session user), the local path stores `u1`. -/
theorem claim_C9_witness :
    (∃ stored r',
      createCommandRest true (some "admin") true ⟨[], 0⟩ exCmdT1 3 =
        Except.ok (stored, r') ∧ stored.creatorId = "admin")
    ∧ ∃ stored r',
      createCommandLocal true ⟨[], 0⟩ exCmdT1 3 =
        Except.ok (stored, r') ∧ stored.creatorId = "u1" := by
  constructor
  · refine ⟨exRestStored, ⟨[exRestStored], 1⟩, rfl, ?_⟩
    exact (claim_C9_creator_attribution ⟨[], 0⟩ exCmdT1 "admin" true 3).1
      exRestStored ⟨[exRestStored], 1⟩ rfl
  · refine ⟨exLocalStored, ⟨[exLocalStored], 1⟩, rfl, ?_⟩
    exact (claim_C9_creator_attribution ⟨[], 0⟩ exCmdT1 "u1" true 3).2
      exLocalStored ⟨[exLocalStored], 1⟩ rfl


/-- C2: a command on a team out of the channel's scope is invisible: with the
trigger unresolved in the channel's own team, execution yields `NotFound`
whether or not a command bearing that trigger exists on another team the
caller cannot reach; and the resolution failure (`NotFound`) is a different
outward category from the authorization failures (`Forbidden`,
`Unauthorized`) produced for a known trigger without membership. -/
theorem claim_C2_inaccessible_indistinguishable
    (integration : Command → String → CommandResponse) (st : ServerState)
    (uid channelId text trigger args : String) (teamIdArg : Option String)
    (ch : Channel) (cmd : Command)
    (hch : findChannel st channelId = some ch)
    (hdir : ch.isDirect = false)
    (hteam : cmd.teamId ≠ ch.teamId)
    (hreach : isTeamMember st cmd.teamId uid = false)
    (hen : st.enableCommands = true)
    (hparse : parseTrigger text = some (trigger, args))
    (htrig : lowerString cmd.trigger = lowerString trigger)
    (hmem : isChannelMember st channelId uid = true)
    (hnone : findByTriggerAndTeam st.commands trigger ch.teamId = none) :
    (executeCommand integration { st with commands := cmd :: st.commands }
        (some uid) channelId teamIdArg text =
      executeCommand integration st (some uid) channelId teamIdArg text)
    ∧ executeCommand integration st (some uid) channelId teamIdArg text =
        Except.error CmdError.notFound
    ∧ (∀ uid2, isChannelMember st channelId uid2 = false →
        executeCommand integration st (some uid2) channelId teamIdArg text =
          Except.error CmdError.forbidden)
    ∧ CmdError.notFound ≠ CmdError.forbidden
    ∧ CmdError.notFound ≠ CmdError.unauthorized := by
  have hnone2 : findByTriggerAndTeam (cmd :: st.commands) trigger ch.teamId = none := by
    rw [findByTriggerAndTeam] at hnone ⊢
    rw [List.find?_cons_of_neg _ (by simp [hteam])]
    exact hnone
  have hbase : executeCommand integration st (some uid) channelId teamIdArg text =
      Except.error CmdError.notFound :=
    exec_unresolved_notFound integration st uid channelId text trigger args
      teamIdArg ch hen hparse hch hdir hmem hnone
  have hmod : executeCommand integration { st with commands := cmd :: st.commands }
      (some uid) channelId teamIdArg text = Except.error CmdError.notFound :=
    exec_unresolved_notFound integration { st with commands := cmd :: st.commands }
      uid channelId text trigger args teamIdArg ch hen hparse hch hdir hmem hnone2
  refine ⟨hmod.trans hbase.symm, hbase, ?_, by decide, by decide⟩
  intro uid2 hmem2
  exact exec_nonmember_forbidden integration st uid2 channelId text trigger args
    teamIdArg ch hen hparse hch hmem2

/-- Witness for C2: `postcommand` lives only on team `t2`; typing it in
channel `c1` of team `t1` as `u3` (no membership anywhere) is `Forbidden`,
while for the member `u1` it is `NotFound` both with and without the `t2`
command registered. -/
theorem claim_C2_witness :
    (executeCommand exIntegration { exState with commands := exCmdT2 :: exState.commands }
        (some "u1") "c1" none "/postcommand" =
      executeCommand exIntegration exState (some "u1") "c1" none "/postcommand")
    ∧ executeCommand exIntegration exState (some "u1") "c1" none "/postcommand" =
        Except.error CmdError.notFound
    ∧ executeCommand exIntegration exState (some "u3") "c1" none "/postcommand" =
        Except.error CmdError.forbidden
    ∧ CmdError.notFound ≠ CmdError.forbidden := by
  have h := claim_C2_inaccessible_indistinguishable exIntegration exState
    "u1" "c1" "/postcommand" "postcommand" "" none ⟨"c1", "t1", false⟩ exCmdT2
    (by decide) rfl (by decide) (by decide) rfl (by decide) rfl (by decide) (by decide)
  exact ⟨h.1, h.2.1, h.2.2.1 "u3" (by decide), h.2.2.2.1⟩

/-- C3: membership gates execution: a caller outside the invoking channel is
rejected with `Forbidden`; in a direct-message channel a caller outside the
explicitly supplied team is rejected with `Forbidden`; removing the caller
from the channel, or from the team of a direct-message invocation, makes the
subsequent execution fail with `Forbidden`, even though team removal leaves
every channel membership (the DM one included) untouched. -/
theorem claim_C3_membership_gates_execution
    (integration : Command → String → CommandResponse) (st : ServerState)
    (uid channelId text trigger args tid : String) (ch : Channel)
    (hen : st.enableCommands = true)
    (hparse : parseTrigger text = some (trigger, args))
    (hch : findChannel st channelId = some ch) :
    (∀ teamIdArg, isChannelMember st channelId uid = false →
      executeCommand integration st (some uid) channelId teamIdArg text =
        Except.error CmdError.forbidden)
    ∧ (ch.isDirect = true → isChannelMember st channelId uid = true →
      isTeamMember st tid uid = false →
      executeCommand integration st (some uid) channelId (some tid) text =
        Except.error CmdError.forbidden)
    ∧ (∀ teamIdArg,
      executeCommand integration (removeUserFromChannel st channelId uid)
        (some uid) channelId teamIdArg text = Except.error CmdError.forbidden)
    ∧ (ch.isDirect = true → isChannelMember st channelId uid = true →
      (removeUserFromTeam st tid uid).channelMembers = st.channelMembers ∧
      executeCommand integration (removeUserFromTeam st tid uid) (some uid)
        channelId (some tid) text = Except.error CmdError.forbidden) := by
  refine ⟨?_, ?_, ?_, ?_⟩
  · intro teamIdArg hmem
    exact exec_nonmember_forbidden integration st uid channelId text trigger args
      teamIdArg ch hen hparse hch hmem
  · intro hdir hmem hteam
    exact exec_dm_nonteam_forbidden integration st uid channelId text trigger args
      tid ch hen hparse hch hdir hmem hteam
  · intro teamIdArg
    exact exec_nonmember_forbidden integration (removeUserFromChannel st channelId uid)
      uid channelId text trigger args teamIdArg ch hen hparse hch
      (isChannelMember_removeUserFromChannel st channelId uid)
  · intro hdir hmem
    refine ⟨rfl, ?_⟩
    exact exec_dm_nonteam_forbidden integration (removeUserFromTeam st tid uid)
      uid channelId text trigger args tid ch hen hparse hch hdir hmem
      (isTeamMember_removeUserFromTeam st tid uid)

/-- Witness for C3: the non-member `u3` is rejected in `c1`; the member `u1`
with an unreachable team `t3` is rejected in `dm1`; after removal from `c1`,
`u1` is rejected there; after removal from team `t2`, `u1` is rejected in
`dm1` under the `t2` context though the DM membership is untouched. -/
theorem claim_C3_witness :
    executeCommand exIntegration exState (some "u3") "c1" none "/echo" =
      Except.error CmdError.forbidden ∧
    executeCommand exIntegration exState (some "u1") "dm1" (some "t3") "/echo" =
      Except.error CmdError.forbidden ∧
    executeCommand exIntegration (removeUserFromChannel exState "c1" "u1")
      (some "u1") "c1" none "/echo" = Except.error CmdError.forbidden ∧
    (removeUserFromTeam exState "t2" "u1").channelMembers = exState.channelMembers ∧
    executeCommand exIntegration (removeUserFromTeam exState "t2" "u1")
      (some "u1") "dm1" (some "t2") "/postcommand" = Except.error CmdError.forbidden := by
  have h1 := claim_C3_membership_gates_execution exIntegration exState
    "u3" "c1" "/echo" "echo" "" "t0" ⟨"c1", "t1", false⟩ rfl (by decide) (by decide)
  have h2 := claim_C3_membership_gates_execution exIntegration exState
    "u1" "dm1" "/echo" "echo" "" "t3" ⟨"dm1", "", true⟩ rfl (by decide) (by decide)
  have h3 := claim_C3_membership_gates_execution exIntegration exState
    "u1" "c1" "/echo" "echo" "" "t0" ⟨"c1", "t1", false⟩ rfl (by decide) (by decide)
  have h4 := claim_C3_membership_gates_execution exIntegration exState
    "u1" "dm1" "/postcommand" "postcommand" "" "t2" ⟨"dm1", "", true⟩
    rfl (by decide) (by decide)
  refine ⟨h1.1 none (by decide), h2.2.1 rfl (by decide) (by decide),
    h3.2.2.1 none, (h4.2.2.2 rfl (by decide)).1, (h4.2.2.2 rfl (by decide)).2⟩

/-- Counterexample for C4 as stated: in the direct-message channel `dm1`,
executing `/postcommand` with no explicit team id fails, but with
`Forbidden`, not with `InvalidInput` as the claim asserts. -/
theorem claim_C4_counterexample :
    executeCommand exIntegration exState (some "u1") "dm1" none "/postcommand" =
      Except.error CmdError.forbidden ∧
    executeCommand exIntegration exState (some "u1") "dm1" none "/postcommand" ≠
      Except.error CmdError.invalidInput := by
  constructor
  · rfl
  · intro h
    rw [show executeCommand exIntegration exState (some "u1") "dm1" none "/postcommand" =
      Except.error CmdError.forbidden from rfl] at h
    exact absurd (Except.error.inj h) (by decide)

/-- C4 (amended): an execution request in a direct- or group-message channel
with no explicitly supplied team id fails, and the failure is classified as
`Forbidden` — the authorization-flavored status checked by the reference
tests — not as `InvalidInput`. -/
theorem claim_C4_amended_dm_missing_team_forbidden
    (integration : Command → String → CommandResponse) (st : ServerState)
    (uid channelId text trigger args : String) (ch : Channel)
    (hen : st.enableCommands = true)
    (hparse : parseTrigger text = some (trigger, args))
    (hch : findChannel st channelId = some ch)
    (hdir : ch.isDirect = true)
    (hmem : isChannelMember st channelId uid = true) :
    executeCommand integration st (some uid) channelId none text =
      Except.error CmdError.forbidden ∧
    CmdError.forbidden ≠ CmdError.invalidInput := by
  refine ⟨?_, by decide⟩
  simp [executeCommand, hen, hparse, hch, hdir, hmem]

/-- Witness for the amended C4: omitting the team id in `dm1` yields
`Forbidden` for the channel member `u1`. -/
theorem claim_C4_amended_witness :
    executeCommand exIntegration exState (some "u1") "dm1" none "/postcommand" =
      Except.error CmdError.forbidden ∧
    CmdError.forbidden ≠ CmdError.invalidInput :=
  claim_C4_amended_dm_missing_team_forbidden exIntegration exState "u1" "dm1"
    "/postcommand" "postcommand" "" ⟨"dm1", "", true⟩
    rfl (by decide) (by decide) rfl (by decide)



theorem toBase26_length_le (fuel n : Nat) : (toBase26 fuel n).length ≤ fuel := by
  induction fuel generalizing n with
  | zero => simp [toBase26]
  | succ f ih =>
    rw [toBase26]
    split
    · simp
    · simpa using Nat.succ_le_succ (ih (n / 26))

theorem triggerIdDigits_length (n : Nat) : (triggerIdDigits n).length = 26 := by
  have h := toBase26_length_le 26 n
  simp only [triggerIdDigits, List.length_append, List.length_replicate]
  omega

theorem mintTriggerId_length (n : Nat) : (mintTriggerId n).length = 26 := by
  have h := triggerIdDigits_length n
  simp only [mintTriggerId, String.length, List.length_map]
  exact h

theorem fromBase26_append_replicate_zero (l : List Nat) (k : Nat) :
    fromBase26 (l ++ List.replicate k 0) = fromBase26 l := by
  induction l with
  | nil =>
    simp only [List.nil_append, fromBase26]
    induction k with
    | zero => simp [List.replicate, fromBase26]
    | succ j ih => simp [List.replicate, fromBase26, ih]
  | cons d ds ih => simp [fromBase26, ih]

theorem fromBase26_toBase26 (fuel n : Nat) (h : n < 26 ^ fuel) :
    fromBase26 (toBase26 fuel n) = n := by
  induction fuel generalizing n with
  | zero =>
    rw [pow_zero, Nat.lt_one_iff] at h
    simp [toBase26, fromBase26, h]
  | succ f ih =>
    rw [toBase26]
    split
    · next hz =>
      rw [beq_iff_eq] at hz
      simp [fromBase26, hz]
    · next hz =>
      have hdiv : n / 26 < 26 ^ f := by
        rw [Nat.div_lt_iff_lt_mul (by norm_num)]
        rw [pow_succ] at h
        exact h
      simp only [fromBase26, ih (n / 26) hdiv]
      exact Nat.mod_add_div n 26

theorem toBase26_digits_lt (fuel n : Nat) : ∀ d ∈ toBase26 fuel n, d < 26 := by
  induction fuel generalizing n with
  | zero => simp [toBase26]
  | succ f ih =>
    rw [toBase26]
    split
    · simp
    · intro d hd
      rcases List.mem_cons.mp hd with h | h
      · subst h
        exact Nat.mod_lt _ (by norm_num)
      · exact ih (n / 26) d h

theorem triggerIdDigits_lt (n : Nat) : ∀ d ∈ triggerIdDigits n, d < 26 := by
  intro d hd
  simp only [triggerIdDigits] at hd
  rcases List.mem_append.mp hd with h | h
  · exact toBase26_digits_lt 26 n d h
  · have := List.eq_of_mem_replicate h
    omega

theorem digitChar26_inj_lt : ∀ d < 26, ∀ e < 26,
    digitChar26 d = digitChar26 e → d = e := by
  decide

theorem map_digitChar26_inj (l1 : List Nat) :
    ∀ l2 : List Nat, (∀ d ∈ l1, d < 26) → (∀ d ∈ l2, d < 26) →
    l1.map digitChar26 = l2.map digitChar26 → l1 = l2 := by
  induction l1 with
  | nil =>
    intro l2 _ _ h
    cases l2 with
    | nil => rfl
    | cons e es => simp at h
  | cons d ds ih =>
    intro l2 h1 h2 h
    cases l2 with
    | nil => simp at h
    | cons e es =>
      simp only [List.map_cons, List.cons.injEq] at h
      have hd := digitChar26_inj_lt d (h1 d (by simp)) e (h2 e (by simp)) h.1
      have hds := ih es (fun x hx => h1 x (by simp [hx]))
        (fun x hx => h2 x (by simp [hx])) h.2
      rw [hd, hds]

theorem mintTriggerId_inj (m n : Nat) (hm : m < 26 ^ 26) (hn : n < 26 ^ 26)
    (h : mintTriggerId m = mintTriggerId n) : m = n := by
  have hlist : (triggerIdDigits m).map digitChar26 =
      (triggerIdDigits n).map digitChar26 := by
    have hdata := congrArg String.data h
    simpa [mintTriggerId] using hdata
  have hdig : triggerIdDigits m = triggerIdDigits n :=
    map_digitChar26_inj _ _ (triggerIdDigits_lt m) (triggerIdDigits_lt n) hlist
  have hfrom : fromBase26 (triggerIdDigits m) = fromBase26 (triggerIdDigits n) := by
    rw [hdig]
  simp only [triggerIdDigits, fromBase26_append_replicate_zero] at hfrom
  rw [fromBase26_toBase26 26 m hm, fromBase26_toBase26 26 n hn] at hfrom
  exact hfrom

theorem executeCommand_ok_inv
    (integration : Command → String → CommandResponse) (st : ServerState)
    (session : Option String) (channelId : String) (teamIdArg : Option String)
    (text : String) (r : CommandResponse) (st2 : ServerState)
    (h : executeCommand integration st session channelId teamIdArg text =
      .ok (r, st2)) :
    r.triggerId = mintTriggerId st.triggerSeq ∧
    st2.triggerSeq = st.triggerSeq + 1 := by
  simp only [executeCommand] at h
  split at h
  · exact absurd h (by simp)
  · split at h
    · exact absurd h (by simp)
    · split at h
      · exact absurd h (by simp)
      · split at h
        · exact absurd h (by simp)
        · split at h
          · exact absurd h (by simp)
          · split at h
            · exact absurd h (by simp)
            · split at h
              · exact absurd h (by simp)
              · split at h
                · exact absurd h (by simp)
                · simp only [Except.ok.injEq, Prod.mk.injEq] at h
                  obtain ⟨hr, hst⟩ := h
                  constructor
                  · rw [← hr]
                  · rw [← hst]

/-- C5: every successful execution returns a response whose freshly minted
trigger id is exactly 26 characters, and two consecutive successful
executions (the second from the state produced by the first) mint different
trigger ids, whatever the integrations returned, as long as the mint counter
stays within the capacity of its 26-character alphabet. -/
theorem claim_C5_trigger_id_fresh_26
    (integrationA integrationB : Command → String → CommandResponse)
    (st stA stB : ServerState) (sessA sessB : Option String)
    (chanA chanB : String) (targA targB : Option String) (textA textB : String)
    (rA rB : CommandResponse)
    (hcap : st.triggerSeq + 1 < 26 ^ 26)
    (hA : executeCommand integrationA st sessA chanA targA textA = .ok (rA, stA))
    (hB : executeCommand integrationB stA sessB chanB targB textB = .ok (rB, stB)) :
    rA.triggerId.length = 26 ∧ rB.triggerId.length = 26 ∧
    rA.triggerId ≠ rB.triggerId := by
  obtain ⟨hrA, hsA⟩ := executeCommand_ok_inv integrationA st sessA chanA targA
    textA rA stA hA
  obtain ⟨hrB, hsB⟩ := executeCommand_ok_inv integrationB stA sessB chanB targB
    textB rB stB hB
  refine ⟨by rw [hrA]; exact mintTriggerId_length _,
    by rw [hrB]; exact mintTriggerId_length _, ?_⟩
  rw [hrA, hrB, hsA]
  intro hcontra
  have := mintTriggerId_inj st.triggerSeq (st.triggerSeq + 1)
    (by omega) (by omega) hcontra
  omega

/-- Witness for C5: two consecutive successful runs of `/echo hi` in `c1`
mint the distinct 26-character ids for counters 0 and 1. -/
theorem claim_C5_witness :
    executeCommand exIntegration exState (some "u1") "c1" none "/echo hi" =
      Except.ok (exRespA, exStateA) ∧
    executeCommand exIntegration exStateA (some "u1") "c1" none "/echo hi" =
      Except.ok (exRespB, exStateB) ∧
    exRespA.triggerId.length = 26 ∧ exRespB.triggerId.length = 26 ∧
    exRespA.triggerId ≠ exRespB.triggerId := by
  have h := claim_C5_trigger_id_fresh_26 exIntegration exIntegration
    exState exStateA exStateB (some "u1") (some "u1") "c1" "c1" none none
    "/echo hi" "/echo hi" exRespA exRespB (by decide) rfl rfl
  exact ⟨rfl, rfl, h.1, h.2.1, h.2.2⟩

end SlashCmd

namespace RolesApi

/-- C10: whenever the permission delta of a patch against the stored role
contains a blacklisted permission, `patchRole` never succeeds and the stored
roles are left unchanged, for every caller and license; and for a caller
with full permissions and a license with guest permissions enabled the
failure is exactly the `NotImplemented` (501) not-allowed-permission
error. -/
theorem claim_C10_blacklist_rejected_not_implemented
    (newSystemRoleIDs : List String) (hasPerm : String → Bool)
    (license : Option License) (store : List Role) (roleId : String)
    (patch : RolePatch) (oldRole : Role) (ps : List String)
    (hfind : store.find? (fun r => r.id == roleId) = some oldRole)
    (hps : patch.permissions = some ps)
    (hhit : (PermissionsChangedByPatch oldRole patch).any
      (fun p => notAllowedPermissions.contains p) = true) :
    (storeAfterPatchRole newSystemRoleIDs hasPerm license store roleId
        (some patch) = store
      ∧ ∀ result, patchRole newSystemRoleIDs hasPerm license store roleId
          (some patch) ≠ Except.ok result)
    ∧ ((∀ q, hasPerm q = true) → license = some ⟨true⟩ →
      ∃ p, patchRole newSystemRoleIDs hasPerm license store roleId (some patch) =
        Except.error ⟨"api.roles.patch_roles.not_allowed_permission.error",
          "Cannot add or remove permission: " ++ p, statusNotImplemented⟩) := by
  have hex : ∃ x ∈ PermissionsChangedByPatch oldRole patch,
      notAllowedPermissions.contains x := by
    simpa [List.any_eq_true] using hhit
  have hsome : ∃ p, (PermissionsChangedByPatch oldRole patch).find?
      (fun p => notAllowedPermissions.contains p) = some p := by
    rw [← Option.isSome_iff_exists, List.find?_isSome]
    exact hex
  obtain ⟨p, hp⟩ := hsome
  have herr : ∃ e, patchRole newSystemRoleIDs hasPerm license store roleId
      (some patch) = Except.error e := by
    simp only [patchRole, hfind, hp]
    repeat' split
    all_goals exact ⟨_, rfl⟩
  obtain ⟨e, he⟩ := herr
  refine ⟨⟨?_, ?_⟩, ?_⟩
  · simp [storeAfterPatchRole, he]
  · intro result hok
    rw [he] at hok
    exact Except.noConfusion hok
  · intro hall hlic
    subst hlic
    refine ⟨p, ?_⟩
    simp only [patchRole, hfind, hall, hp, Bool.not_true, Bool.false_eq_true,
      if_false]
    simp

/-- Witness for C10: with full permissions and a guest-enabled license,
patching `custom_role` to add `manage_roles` fails with the 501
not-allowed-permission error and the store keeps the original role. -/
theorem claim_C10_witness :
    storeAfterPatchRole [] (fun _ => true) (some ⟨true⟩) exRoleStore "r1"
      (some exRolePatch) = exRoleStore ∧
    patchRole [] (fun _ => true) (some ⟨true⟩) exRoleStore "r1"
      (some exRolePatch) =
      Except.error ⟨"api.roles.patch_roles.not_allowed_permission.error",
        "Cannot add or remove permission: manage_roles", statusNotImplemented⟩ := by
  have h := claim_C10_blacklist_rejected_not_implemented [] (fun _ => true)
    (some ⟨true⟩) exRoleStore "r1" exRolePatch ⟨"r1", "custom_role", ["read_channel"]⟩
    ["read_channel", "manage_roles"] rfl rfl (by decide)
  exact ⟨h.1.1, rfl⟩


end RolesApi
